import Mathlib

/-!
Verification development for the agora-server repository: a CRUD HTTP API for
restaurant menu items (Go, net/http, bun ORM over Postgres).

The embedding below translates the relevant source files:
  * internal/services/items.go        (MenuItemService and the models package:
                                       MenuItem, MenuItemQuery, SoftDelete/Restore)
  * internal/handlers/items.go        (MenuItemHandlers: status-code mapping)
  * internal/handlers/health file     (HealthHandler, HealthHandlerWithDB)
  * internal/middlewares/middlewares.go (Logging, CORS, Recovery, NotFoundHandler)
  * internal/routers (SetupRoutes revision that mounts the items routes under
                      the /api/v1 sub-mux via http.StripPrefix)
  * cmd/server/main.go                (middleware wiring, catch-all route)
  * internal/database/migrations/20250628_001_create_menu_items.go (table schema)

Modelling conventions:
  * The relational store is the external storage gateway; queries are
    executed over an in-memory list of rows, with SQL three-valued logic for
    NULL columns.  Because the MenuItem model carries the bun soft_delete
    tag, bun appends an implicit deleted_at IS NULL clause to every SELECT
    over the model, and no query in the repository opts out of it (none
    calls WhereAllWithDeleted or WhereDeleted); the embedded queries
    therefore carry that implicit clause alongside the written WHERE
    clauses.  For the queries that already filter on deleted_at IS NULL the
    implicit clause coincides with the written one; for WithDeleted,
    OnlyDeleted and FindByIDWithDeleted it changes the result, as noted on
    each definition.  ILIKE is Postgres pattern matching (percent,
    underscore, backslash escape) over lower-cased text.
  * time.Now() is an abstract integer clock passed in as an argument; the Go
    time formatting applied when shaping DTOs is kept abstract (the integer
    instant itself is carried).
  * HTTP handling is writer-state passing: a Writer accumulates headers,
    a write-once status code and body chunks, exactly as net/http does.
    Handler outcomes carry the structured log lines emitted by slog and an
    optional pending panic.
  * fmt %d rendering of identifiers is given by an explicit decimal printer.
-/

set_option maxRecDepth 4000

namespace Agora

/-! ## Decimal rendering of identifiers (the fmt verb %d) -/

/-- Decimal digit character for a value below ten. -/
def digitCh (n : Nat) : Char := Char.ofNat (48 + n)

/-- Worker for natDigits, structurally recursive on a fuel argument so that
it evaluates by kernel reduction; each step divides the number by ten, so a
fuel of one more than the number is always ample. -/
def natDigitsF : Nat → Nat → List Char
  | 0, _ => []
  | fuel + 1, n =>
      if n < 10 then [digitCh n]
      else natDigitsF fuel (n / 10) ++ [digitCh (n % 10)]

/-- Decimal digit list of a natural number, most significant digit first. -/
def natDigits (n : Nat) : List Char := natDigitsF (n + 1) n

/-- Decimal rendering of an integer, as produced by fmt with the %d verb. -/
def intToStr : Int → String
  | Int.ofNat m => String.mk (natDigits m)
  | Int.negSucc m => String.mk ('-' :: natDigits (m + 1))

/-! ## Substring search (strings.Contains) -/

/-- Does `sub` occur as a contiguous run inside `t`?  (strings.Contains). -/
def containsL (t sub : List Char) : Bool :=
  (List.range (t.length + 1)).any fun i => sub.isPrefixOf (t.drop i)

/-- strings.Contains on Go strings. -/
def strContainsB (s sub : String) : Bool := containsL s.data sub.data

/-! ## SQL LIKE / ILIKE pattern matching -/

/-- Worker for likeMatch, structurally recursive on a fuel argument so that
it evaluates by kernel reduction; every step consumes at least one character
of the pattern or the text, so a fuel of one more than the total length is
always ample. -/
def likeMatchF : Nat → List Char → List Char → Bool
  | 0, _, _ => false
  | _ + 1, [], [] => true
  | _ + 1, [], _ :: _ => false
  | f + 1, '%' :: ps, [] => likeMatchF f ps []
  | f + 1, '%' :: ps, d :: ts => likeMatchF f ps (d :: ts) || likeMatchF f ('%' :: ps) ts
  | _ + 1, '_' :: _, [] => false
  | f + 1, '_' :: ps, _ :: ts => likeMatchF f ps ts
  | _ + 1, '\\' :: _ :: _, [] => false
  | f + 1, '\\' :: c :: ps, d :: ts => c == d && likeMatchF f ps ts
  | _ + 1, _ :: _, [] => false
  | f + 1, c :: ps, d :: ts => c == d && likeMatchF f ps ts

/-- Postgres LIKE matching over characters: percent matches any run of
characters, underscore matches exactly one character, backslash escapes the
following pattern character.  The whole text must be consumed. -/
def likeMatch (p t : List Char) : Bool := likeMatchF (p.length + t.length + 1) p t

/-- Lower-cased character list of a string (ILIKE is case-insensitive). -/
def lowerL (s : String) : List Char := s.data.map Char.toLower

/-- `s ILIKE pat` for a non-NULL column value. -/
def ilikeB (pat s : String) : Bool := likeMatch (lowerL pat) (lowerL s)

/-- The test the search query performs on one column value:
ILIKE against the pattern percent-term-percent built by SearchMenuItems. -/
def sqlIlikeContains (term s : String) : Bool := ilikeB ("%" ++ term ++ "%") s

/-- Case-insensitive substring containment: the reading used by the
specification sentence about search. -/
def containsCI (term s : String) : Bool := containsL (lowerL s) (lowerL term)

/-! ## SQL three-valued logic -/

inductive SqlB
  | t
  | f
  | null
deriving DecidableEq, Repr

def sqlOfBool : Bool → SqlB
  | true => .t
  | false => .f

def sqlOr : SqlB → SqlB → SqlB
  | .t, _ => .t
  | _, .t => .t
  | .f, .f => .f
  | _, _ => .null

def sqlAnd : SqlB → SqlB → SqlB
  | .f, _ => .f
  | _, .f => .f
  | .t, .t => .t
  | _, _ => .null

def sqlIsTrue : SqlB → Bool
  | .t => true
  | _ => false

/-- `col ILIKE pat` with SQL NULL semantics for a nullable column. -/
def sqlIlikeCol (col : Option String) (pat : String) : SqlB :=
  match col with
  | none => .null
  | some s => sqlOfBool (ilikeB pat s)

/-! ## Data model: models.MenuItem and the service DTO -/

/-- models.MenuItem.  The identifier is abstract (source revisions use either
an integer or a UUID; nothing below depends on its shape beyond equality).
Timestamps are abstract clock instants. -/
structure MenuItem where
  id : Int
  name : String
  description : Option String
  price : Rat
  category : String
  isAvailable : Bool
  createdAt : Int
  updatedAt : Int
  deletedAt : Option Int
deriving DecidableEq, Repr

/-- services.MenuItemResponse.  deleted_at is present only when non-null,
modelled by the Option.  Timestamp formatting is kept abstract. -/
structure MenuItemResponse where
  id : Int
  name : String
  description : Option String
  price : Rat
  category : String
  isAvailable : Bool
  createdAt : Int
  updatedAt : Int
  deletedAt : Option Int
deriving DecidableEq, Repr

/-- services.MenuItemService.toResponse. -/
def toResponse (m : MenuItem) : MenuItemResponse :=
  { id := m.id, name := m.name, description := m.description, price := m.price,
    category := m.category, isAvailable := m.isAvailable,
    createdAt := m.createdAt, updatedAt := m.updatedAt, deletedAt := m.deletedAt }

/-- services.CreateMenuItemRequest (after JSON decoding). -/
structure CreateMenuItemRequest where
  name : String
  description : Option String
  price : Rat
  category : String
  isAvailable : Option Bool
deriving DecidableEq, Repr

/-- The table contents of menu_items. -/
abbrev DB := List MenuItem

/-! ## Repository queries (models.MenuItemQuery), as the written SQL -/

/-- MenuItemQuery.All: WHERE deleted_at IS NULL. -/
def qAll (db : DB) : List MenuItem := db.filter fun r => r.deletedAt.isNone

/-- MenuItemQuery.WithDeleted: written with no WHERE clause, but the bun
soft_delete tag on the model makes the executed SELECT carry the implicit
deleted_at IS NULL clause (the query does not call WhereAllWithDeleted), so
only active rows are returned, contrary to the method name. -/
def qWithDeleted (db : DB) : List MenuItem := db.filter fun r => r.deletedAt.isNone

/-- MenuItemQuery.OnlyDeleted: the written WHERE deleted_at IS NOT NULL
conjoined with the implicit bun soft-delete clause deleted_at IS NULL; the
conjunction is unsatisfiable, so the executed query returns no rows. -/
def qOnlyDeleted (db : DB) : List MenuItem :=
  db.filter fun r => r.deletedAt.isSome && r.deletedAt.isNone

/-- MenuItemQuery.FindByID: WHERE id = ? AND deleted_at IS NULL;
Scan of an empty result is sql.ErrNoRows, modelled as none. -/
def qFindByID (db : DB) (id : Int) : Option MenuItem :=
  db.find? fun r => r.id == id && r.deletedAt.isNone

/-- MenuItemQuery.FindByIDWithDeleted: written as WHERE id = ? only, but the
implicit bun soft-delete clause makes the executed query
WHERE id = ? AND deleted_at IS NULL, so soft-deleted rows are never found,
contrary to the method's own doc comment (includes soft-deleted). -/
def qFindByIDWithDeleted (db : DB) (id : Int) : Option MenuItem :=
  db.find? fun r => r.id == id && r.deletedAt.isNone

/-! ## Error message texts (fmt.Errorf wrapping in services/items.go) -/

/-- The text of database/sql ErrNoRows. -/
def noRowsText : String := "sql: no rows in result set"

/-- fmt.Errorf("failed to find menu item with ID %d: %w", id, err) around
sql.ErrNoRows. -/
def findErrMsg (id : Int) : String :=
  "failed to find menu item with ID " ++ intToStr id ++ ": " ++ noRowsText

/-- fmt.Errorf("menu item with ID %d is not deleted", id). -/
def notDeletedMsg (id : Int) : String :=
  "menu item with ID " ++ intToStr id ++ " is not deleted"

/-- Wrapped driver text when an INSERT violates a schema constraint
(fmt.Errorf("failed to create menu item: %w", err)); the driver text itself
is abstracted. -/
def insertConstraintMsg : String := "failed to create menu item: constraint violation"

/-! ## Table schema constraints (migration 20250628_001_create_menu_items) -/

/-- The CHECK constraint on category in the migration (note: it does not
include the value fast food that the handlers accept). -/
def schemaCategories : List String := ["appetizer", "main", "dessert", "drink", "side"]

/-- Rows the table accepts: name VARCHAR(100), price CHECK gt zero,
category CHECK membership. -/
def schemaOk (m : MenuItem) : Bool :=
  m.name.data.length ≤ 100 && decide (0 < m.price) && schemaCategories.contains m.category

/-! ## Service layer (services.MenuItemService) -/

/-- MenuItemService.CreateMenuItem: builds the row with is_available
defaulting to true, and inserts it.  No field validation is performed in the
service (the validate struct tags are never enforced); the insert succeeds
whenever the table schema accepts the row.  The bun insert hook assigns both
timestamps; the fresh identifier is a parameter. -/
def CreateMenuItem (db : DB) (req : CreateMenuItemRequest) (now newId : Int) :
    Except String (DB × MenuItemResponse) :=
  let item : MenuItem :=
    { id := newId, name := req.name, description := req.description,
      price := req.price, category := req.category,
      isAvailable := req.isAvailable.getD true,
      createdAt := now, updatedAt := now, deletedAt := none }
  if schemaOk item then .ok (db ++ [item], toResponse item)
  else .error insertConstraintMsg

/-- MenuItemService.GetAllMenuItems. -/
def GetAllMenuItems (db : DB) : List MenuItemResponse := (qAll db).map toResponse

/-- MenuItemService.GetMenuItemsByCategory:
WHERE category = ? AND deleted_at IS NULL. -/
def GetMenuItemsByCategory (db : DB) (category : String) : List MenuItemResponse :=
  (db.filter fun r => r.category == category && r.deletedAt.isNone).map toResponse

/-- MenuItemService.GetAvailableMenuItems:
WHERE is_available = true AND deleted_at IS NULL. -/
def GetAvailableMenuItems (db : DB) : List MenuItemResponse :=
  (db.filter fun r => r.isAvailable && r.deletedAt.isNone).map toResponse

/-- MenuItemService.GetAllMenuItemsWithDeleted. -/
def GetAllMenuItemsWithDeleted (db : DB) : List MenuItemResponse :=
  (qWithDeleted db).map toResponse

/-- MenuItemService.GetDeletedMenuItems. -/
def GetDeletedMenuItems (db : DB) : List MenuItemResponse :=
  (qOnlyDeleted db).map toResponse

/-- MenuItemService.SearchMenuItems:
WHERE (name ILIKE ? OR description ILIKE ?) AND deleted_at IS NULL with the
pattern percent-query-percent, under SQL three-valued logic. -/
def SearchMenuItems (db : DB) (query : String) : List MenuItemResponse :=
  let searchPattern := "%" ++ query ++ "%"
  (db.filter fun r =>
      sqlIsTrue (sqlAnd
        (sqlOr (sqlIlikeCol (some r.name) searchPattern)
               (sqlIlikeCol r.description searchPattern))
        (sqlOfBool r.deletedAt.isNone))).map toResponse

/-- MenuItemService.SoftDeleteMenuItem: FindByID (active rows only), then
MenuItem.SoftDelete, which captures now once and issues
UPDATE SET deleted_at = now, updated_at = now WHERE id = ?. -/
def SoftDeleteMenuItem (db : DB) (id now : Int) : Except String DB :=
  match qFindByID db id with
  | none => .error (findErrMsg id)
  | some item =>
      .ok (db.map fun r =>
        if r.id == item.id then { r with deletedAt := some now, updatedAt := now } else r)

/-- MenuItemService.RestoreMenuItem: FindByIDWithDeleted; error when the row
is not soft-deleted; otherwise MenuItem.Restore clears deleted_at and
refreshes updated_at, and the refreshed DTO is returned.  Note that under
the implicit soft-delete clause on the lookup, the found row always has a
null deleted_at, so the restoring branch is unreachable dead code. -/
def RestoreMenuItem (db : DB) (id now : Int) : Except String (DB × MenuItemResponse) :=
  match qFindByIDWithDeleted db id with
  | none => .error (findErrMsg id)
  | some item =>
      if item.deletedAt.isNone then .error (notDeletedMsg id)
      else
        let item' := { item with deletedAt := none, updatedAt := now }
        .ok (db.map fun r =>
              if r.id == item.id then { r with deletedAt := none, updatedAt := now } else r,
            toResponse item')

/-- MenuItemService.ForceDeleteMenuItem: FindByIDWithDeleted, then permanent
DELETE WHERE id = ? (the ForceDelete call bypasses the soft-delete
conversion of the DELETE query); the implicit clause on the lookup means an
already-soft-deleted row is not found. -/
def ForceDeleteMenuItem (db : DB) (id : Int) : Except String DB :=
  match qFindByIDWithDeleted db id with
  | none => .error (findErrMsg id)
  | some item => .ok (db.filter fun r => !(r.id == item.id))

/-! ## Item handlers (handlers.MenuItemHandlers), outcome level -/

inductive ApiPayload
  | nothing
  | item (r : MenuItemResponse)
  | items (rs : List MenuItemResponse)
deriving DecidableEq, Repr

/-- Handler outcome: ok carries the success envelope (data plus message),
err the error envelope (reason phrase, message, code = status). -/
inductive ApiResult
  | ok (status : Nat) (payload : ApiPayload) (message : String)
  | err (status : Nat) (message : String)
deriving DecidableEq, Repr

/-- The four query parameters read by GetAllMenuItems (raw strings;
an absent parameter reads as the empty string). -/
structure ListParams where
  category : String
  available : String
  includeDeleted : String
  search : String
deriving DecidableEq, Repr

/-- handlers.MenuItemHandlers.GetAllMenuItems: the switch over query
parameters; availableOnly and includeDeleted compare the raw value to true. -/
def handlerGetAllMenuItems (db : DB) (p : ListParams) : ApiResult :=
  if p.search ≠ "" then
    .ok 200 (.items (SearchMenuItems db p.search)) "Menu items retrieved successfully"
  else if p.category ≠ "" then
    .ok 200 (.items (GetMenuItemsByCategory db p.category)) "Menu items retrieved successfully"
  else if p.available = "true" then
    .ok 200 (.items (GetAvailableMenuItems db)) "Menu items retrieved successfully"
  else if p.includeDeleted = "true" then
    .ok 200 (.items (GetAllMenuItemsWithDeleted db)) "Menu items retrieved successfully"
  else
    .ok 200 (.items (GetAllMenuItems db)) "Menu items retrieved successfully"

/-- handlers.MenuItemHandlers.CreateMenuItem: body none models a JSON decode
failure; any service error maps to 500; success maps to 201. -/
def handlerCreateMenuItem (db : DB) (body : Option CreateMenuItemRequest) (now newId : Int) :
    ApiResult × DB :=
  match body with
  | none => (.err 400 "Invalid JSON format", db)
  | some req =>
      match CreateMenuItem db req now newId with
      | .error e => (.err 500 e, db)
      | .ok (db', resp) => (.ok 201 (.item resp) "Menu item created successfully", db')

/-- handlers.MenuItemHandlers.DeleteMenuItem: force selects the permanent
delete; an error whose text contains no rows maps to 404, anything else to
500; success is 200 with a null data payload. -/
def handlerDeleteMenuItem (db : DB) (id : Int) (force : Bool) (now : Int) :
    ApiResult × DB :=
  let attempt : Except String DB :=
    if force then ForceDeleteMenuItem db id else SoftDeleteMenuItem db id now
  match attempt with
  | .error e =>
      if strContainsB e "no rows" then (.err 404 "Menu item not found", db)
      else (.err 500 e, db)
  | .ok db' =>
      (.ok 200 .nothing
        (if force then "Menu item permanently deleted" else "Menu item deleted successfully"), db')

/-- handlers.MenuItemHandlers.RestoreMenuItem: no rows maps to 404,
not deleted maps to 400, anything else to 500; success is 200 with the DTO. -/
def handlerRestoreMenuItem (db : DB) (id now : Int) : ApiResult × DB :=
  match RestoreMenuItem db id now with
  | .error e =>
      if strContainsB e "no rows" then (.err 404 "Menu item not found", db)
      else if strContainsB e "not deleted" then (.err 400 "Menu item is not deleted", db)
      else (.err 500 e, db)
  | .ok (db', resp) => (.ok 200 (.item resp) "Menu item restored successfully", db')

/-! ## Health handler (handlers.HealthHandlerWithDB) -/

/-- The argument of context.WithTimeout around database.HealthCheck,
in seconds. -/
def healthCheckTimeoutSeconds : Nat := 5

structure HealthOutcome where
  statusCode : Nat
  overallStatus : String
  databaseStatus : String
  databaseError : Option String
deriving DecidableEq, Repr

/-- handlers.HealthHandlerWithDB: the database check runs under the fixed
sub-deadline; its outcome (none for success, the error text otherwise) fixes
the body fields and, through the degraded check, the status code. -/
def HealthHandlerWithDB (check : Nat → Option String) : HealthOutcome :=
  let resp : HealthOutcome :=
    match check healthCheckTimeoutSeconds with
    | some e =>
        { statusCode := 200, overallStatus := "degraded",
          databaseStatus := "unhealthy", databaseError := some e }
    | none =>
        { statusCode := 200, overallStatus := "healthy",
          databaseStatus := "healthy", databaseError := none }
  if resp.overallStatus = "degraded" then { resp with statusCode := 503 } else resp

/-! ## HTTP layer: writer state, middleware chain, router (Tier A)

A Handler is a function from the request and the current ResponseWriter state
to an outcome carrying the new writer state, the slog lines emitted, and an
optional pending panic.  WriteHeader is write-once (net/http ignores
superfluous calls) and Write defaults the status to 200, exactly like the
loggingResponseWriter wrapper assumes. -/

structure Request where
  method : String
  path : String
  now : Int
deriving DecidableEq, Repr

/-- middlewares.ErrorResponse: the JSON error envelope written by
SendErrorResponse, field for field (Message, Error, StatusCode, Path,
Timestamp). -/
structure ErrEnvelope where
  message : String
  errorText : String
  statusCode : Nat
  path : String
  timestamp : Int
deriving DecidableEq, Repr

/-- One chunk written to the response body: either raw text (the net/http
built-in plain responses) or the JSON-encoded error envelope. -/
inductive BodyChunk
  | text (s : String)
  | envelope (e : ErrEnvelope)
deriving DecidableEq, Repr

structure Writer where
  headers : List (String × String)
  status : Option Nat
  body : List BodyChunk
deriving DecidableEq, Repr

def Writer.empty : Writer := { headers := [], status := none, body := [] }

/-- http.Header Set: replace the value under the key, or add it. -/
def Writer.setHeader (w : Writer) (k v : String) : Writer :=
  if w.headers.any fun kv => kv.1 == k then
    { w with headers := w.headers.map fun kv => if kv.1 == k then (k, v) else kv }
  else
    { w with headers := w.headers ++ [(k, v)] }

/-- WriteHeader: the first call fixes the status, later calls are ignored. -/
def Writer.writeHeader (w : Writer) (code : Nat) : Writer :=
  match w.status with
  | none => { w with status := some code }
  | some _ => w

/-- Write: an implicit WriteHeader 200 when none was sent, then append. -/
def Writer.write (w : Writer) (c : BodyChunk) : Writer :=
  let w' := match w.status with
    | none => { w with status := some 200 }
    | some _ => w
  { w' with body := w'.body ++ [c] }

inductive LogLevel
  | info
  | warn
  | error
deriving DecidableEq, Repr

structure LogLine where
  level : LogLevel
  msg : String
  method : String
  path : String
  status : Nat
deriving DecidableEq, Repr

structure HRes where
  writer : Writer
  logs : List LogLine
  panicked : Option String
deriving DecidableEq, Repr

def Handler := Request → Writer → HRes

/-- middlewares.SendErrorResponse: Content-Type, status code, then the JSON
envelope as one body write. -/
def SendErrorResponse (w : Writer) (r : Request) (statusCode : Nat)
    (errorType message : String) : Writer :=
  ((w.setHeader "Content-Type" "application/json").writeHeader statusCode).write
    (.envelope
      { message := message, errorText := errorType, statusCode := statusCode,
        path := r.path, timestamp := r.now })

/-- middlewares.NotFoundHandler: the 404 error envelope with message
Cannot method path. -/
def NotFoundHandler : Handler := fun r w =>
  { writer := SendErrorResponse w r 404 "Not Found" ("Cannot " ++ r.method ++ " " ++ r.path),
    logs := [], panicked := none }

/-- slog level chosen by LoggingMiddleware from the captured status. -/
def logLevelFor (status : Nat) : LogLevel :=
  if 500 ≤ status then .error else if 400 ≤ status then .warn else .info

/-- middlewares.LoggingMiddleware: runs the inner handler, then (no defer is
used, so not on a panic) emits one HTTP Request line with the status the
wrapped writer captured (0 when nothing was written). -/
def LoggingMiddleware (next : Handler) : Handler := fun r w =>
  let res := next r w
  match res.panicked with
  | some _ => res
  | none =>
      let captured := res.writer.status.getD 0
      { res with
          logs := res.logs ++
            [{ level := logLevelFor captured, msg := "HTTP Request",
               method := r.method, path := r.path, status := captured }] }

/-- The three headers CORSMiddleware sets unconditionally. -/
def corsSetHeaders (w : Writer) : Writer :=
  ((w.setHeader "Access-Control-Allow-Origin" "*").setHeader
      "Access-Control-Allow-Methods" "GET, POST, PUT, DELETE, OPTIONS").setHeader
    "Access-Control-Allow-Headers"
    "Accept, Content-Type, Content-Length, Accept-Encoding, X-CSRF-Token, Authorization"

/-- middlewares.CORSMiddleware: sets the headers, answers OPTIONS with a bare
200 and no body, and otherwise passes the request inward. -/
def CORSMiddleware (next : Handler) : Handler := fun r w =>
  let w1 := corsSetHeaders w
  if r.method = "OPTIONS" then { writer := w1.writeHeader 200, logs := [], panicked := none }
  else next r w1

/-- middlewares.RecoveryMiddleware: a pending panic is logged and answered
with the 500 error envelope on top of whatever was already written; normal
outcomes pass through. -/
def RecoveryMiddleware (next : Handler) : Handler := fun r w =>
  let res := next r w
  match res.panicked with
  | some _ =>
      { writer := SendErrorResponse res.writer r 500 "Internal Server Error"
          "An unexpected error occurred",
        logs := res.logs ++
          [{ level := .error, msg := "Panic recovered", method := r.method,
             path := r.path, status := 0 }],
        panicked := none }
  | none => res

/-! ### Router (SetupRoutes and the catch-all in main.go) -/

/-- The handlers the routes dispatch to, abstract at this layer (their
outcome-level behaviour is verified separately above). -/
structure ItemsApp where
  rootHealth : Handler
  apiHealth : Handler
  getAll : Handler
  create : Handler
  getDeleted : Handler
  byCategory : Handler
  getByID : Handler
  update : Handler
  delete : Handler
  restore : Handler

/-- The net/http built-in plain 404 body (http.NotFound), as issued by a
ServeMux with no matching pattern. -/
def goNotFound : Handler := fun _ w =>
  { writer := (((w.setHeader "Content-Type" "text/plain; charset=utf-8").setHeader
        "X-Content-Type-Options" "nosniff").writeHeader 404).write
      (.text "404 page not found\n"),
    logs := [], panicked := none }

/-- The net/http plain 405 for a path that matches a pattern only under other
methods (the Allow header is abstracted away). -/
def goMethodNotAllowed : Handler := fun _ w =>
  { writer := (((w.setHeader "Content-Type" "text/plain; charset=utf-8").setHeader
        "X-Content-Type-Options" "nosniff").writeHeader 405).write
      (.text "Method Not Allowed\n"),
    logs := [], panicked := none }

/-- The ServeMux redirect from /api/v1 to the registered /api/v1/ subtree
(body text abstracted). -/
def goRedirectApiV1 : Handler := fun _ w =>
  { writer := ((w.setHeader "Location" "/api/v1/").writeHeader 301).write
      (.text "Moved Permanently\n"),
    logs := [], panicked := none }

def splitSlashAux : List Char → List Char → List (List Char)
  | [], acc => [acc.reverse]
  | '/' :: rest, acc => acc.reverse :: splitSlashAux rest []
  | c :: rest, acc => splitSlashAux rest (c :: acc)

/-- Segments of a path beginning with a slash. -/
def innerSegs (p : String) : List String :=
  (splitSlashAux (p.data.drop 1) []).map String.mk

def strStarts (pre s : String) : Bool := pre.data.isPrefixOf s.data

/-- http.StripPrefix of /api/v1 (seven characters). -/
def stripApiV1 (p : String) : String := String.mk (p.data.drop 7)

/-- The /api/v1 sub-mux built by SetupRoutes: the method-less /health route,
the eight items routes of Go 1.22 pattern syntax, the plain 405 for a
path match under the wrong method, and the plain 404 otherwise (this sub-mux
registers no catch-all). -/
def apiV1Mux (app : ItemsApp) : Handler := fun r w =>
  if r.path = "/health" then app.apiHealth r w
  else
    match innerSegs r.path, r.method with
    | ["items"], "GET" => app.getAll r w
    | ["items"], "POST" => app.create r w
    | ["items"], _ => goMethodNotAllowed r w
    | ["items", "deleted"], "GET" => app.getDeleted r w
    | ["items", "deleted"], _ => goMethodNotAllowed r w
    | ["items", "category", c], "GET" =>
        if c = "" then goNotFound r w else app.byCategory r w
    | ["items", i, "restore"], "POST" =>
        if i = "" then goNotFound r w else app.restore r w
    | ["items", "category", c], _ =>
        if c = "" then goNotFound r w else goMethodNotAllowed r w
    | ["items", i], "GET" => if i = "" then goNotFound r w else app.getByID r w
    | ["items", i], "PUT" => if i = "" then goNotFound r w else app.update r w
    | ["items", i], "DELETE" => if i = "" then goNotFound r w else app.delete r w
    | ["items", i], _ => if i = "" then goNotFound r w else goMethodNotAllowed r w
    | ["items", i, "restore"], _ =>
        if i = "" then goNotFound r w else goMethodNotAllowed r w
    | _, _ => goNotFound r w

/-- The top-level ServeMux of main.go: the exact /health route, the /api/v1/
mount behind StripPrefix (with the ServeMux redirect for /api/v1 itself), and
the catch-all route bound to middlewares.NotFoundHandler. -/
def muxHandler (app : ItemsApp) : Handler := fun r w =>
  if r.path = "/health" then app.rootHealth r w
  else if r.path = "/api/v1" then goRedirectApiV1 r w
  else if strStarts "/api/v1/" r.path then
    apiV1Mux app { r with path := stripApiV1 r.path } w
  else NotFoundHandler r w

/-- The handler main.go passes to http.Server: starting from the mux,
Recovery is applied first, then Logging, then CORS, so CORS ends up
outermost. -/
def appServerHandler (app : ItemsApp) : Handler :=
  let handler0 := muxHandler app
  let handler1 := RecoveryMiddleware handler0
  let handler2 := LoggingMiddleware handler1
  let handler3 := CORSMiddleware handler2
  handler3

/-- The nesting order asserted by the specification sentence (Recovery
outermost, then Logging, then CORS, router innermost), written out for
comparison with appServerHandler. -/
def specClaimedChain (app : ItemsApp) : Handler :=
  RecoveryMiddleware (LoggingMiddleware (CORSMiddleware (muxHandler app)))

/-- A handler that does nothing, used to instantiate ItemsApp in concrete
evaluations. -/
def idleHandler : Handler := fun _ w => { writer := w, logs := [], panicked := none }

def trivialApp : ItemsApp :=
  { rootHealth := idleHandler, apiHealth := idleHandler, getAll := idleHandler,
    create := idleHandler, getDeleted := idleHandler, byCategory := idleHandler,
    getByID := idleHandler, update := idleHandler, delete := idleHandler,
    restore := idleHandler }

/-- The header list after corsSetHeaders on a fresh writer, written out. -/
def corsHeadersList : List (String × String) :=
  [("Access-Control-Allow-Origin", "*"),
   ("Access-Control-Allow-Methods", "GET, POST, PUT, DELETE, OPTIONS"),
   ("Access-Control-Allow-Headers",
    "Accept, Content-Type, Content-Length, Accept-Encoding, X-CSRF-Token, Authorization")]

/-! ## Specification-side definitions and concrete fixtures -/

/-- Search as the specification words it: active items whose name or
description contains the term as a case-insensitive substring. -/
def specSearchMenuItems (db : DB) (term : String) : List MenuItemResponse :=
  (db.filter fun r =>
      (containsCI term r.name ||
        (match r.description with
         | some d => containsCI term d
         | none => false)) && r.deletedAt.isNone).map toResponse

/-- Fixture for the search counterexample. -/
def c5Item : MenuItem :=
  { id := 1, name := "a", description := none, price := 1, category := "main",
    isAvailable := true, createdAt := 0, updatedAt := 0, deletedAt := none }

/-- Create request with an empty name (fixture for C2). -/
def c2Req : CreateMenuItemRequest :=
  { name := "", description := none, price := 5, category := "main", isAvailable := none }

/-- The row the create path inserts for c2Req. -/
def c2Inserted : MenuItem :=
  { id := 1, name := "", description := none, price := 5, category := "main",
    isAvailable := true, createdAt := 0, updatedAt := 0, deletedAt := none }

/-- Fixture request for the unmatched-path counterexample. -/
def c6Request : Request := { method := "GET", path := "/api/v1/bogus", now := 0 }

/-- Fixture OPTIONS request for the middleware-order counterexample. -/
def c1Request : Request := { method := "OPTIONS", path := "/api/v1/items", now := 0 }

/-- A soft-deleted row (fixtures for the restore and delete claims). -/
def deletedItemFx : MenuItem :=
  { id := 1, name := "Margherita Pizza", description := none, price := 15, category := "main",
    isAvailable := true, createdAt := 0, updatedAt := 5, deletedAt := some 5 }

/-- The same row, active (fixture for the restore claim). -/
def activeItemFx : MenuItem :=
  { id := 1, name := "Margherita Pizza", description := none, price := 15, category := "main",
    isAvailable := true, createdAt := 0, updatedAt := 0, deletedAt := none }

/-! ## Lemmas: string machinery -/

theorem str_data_append (a b : String) : (a ++ b).data = a.data ++ b.data := by
  cases a
  cases b
  rfl

theorem containsL_eq_true_iff (t sub : List Char) :
    containsL t sub = true ↔ ∃ i, sub <+: t.drop i := by
  unfold containsL
  rw [List.any_eq_true]
  constructor
  · rintro ⟨i, _, hp⟩
    exact ⟨i, List.isPrefixOf_iff_prefix.mp hp⟩
  · rintro ⟨i, hp⟩
    by_cases hi : i ≤ t.length
    · exact ⟨i, List.mem_range.mpr (by omega), List.isPrefixOf_iff_prefix.mpr hp⟩
    · rw [List.drop_eq_nil_of_le (by omega)] at hp
      have hsub : sub = [] := List.prefix_nil.mp hp
      refine ⟨0, List.mem_range.mpr (by omega), ?_⟩
      rw [hsub]
      exact List.isPrefixOf_iff_prefix.mpr List.nil_prefix

theorem containsL_append_right (a b sub : List Char) (h : containsL b sub = true) :
    containsL (a ++ b) sub = true := by
  rw [containsL_eq_true_iff] at h ⊢
  obtain ⟨i, hp⟩ := h
  refine ⟨a.length + i, ?_⟩
  have hd : (a ++ b).drop (a.length + i) = b.drop i := by
    rw [List.drop_append_eq_append_drop, List.drop_eq_nil_of_le (by omega),
      Nat.add_sub_cancel_left]
    simp
  rw [hd]
  exact hp

theorem prefix_of_append_of_le (s x y : List Char) (h : s <+: x ++ y)
    (hl : s.length ≤ x.length) : s <+: x := by
  have h1 : (x ++ y).take s.length = s := by
    obtain ⟨t, ht⟩ := h
    rw [← ht]
    exact List.take_left s t
  have h2 : (x ++ y).take s.length = x.take s.length := by
    rw [List.take_append_eq_append_take, Nat.sub_eq_zero_of_le hl]
    simp
  have h3 : s = x.take s.length := h1.symm.trans h2
  rw [h3]
  exact List.take_prefix _ _

theorem containsL_append3_eq_false (a m b sub : List Char)
    (hm : m ≠ [])
    (hchar : ∀ c ∈ m, ∀ c' ∈ sub, c ≠ c')
    (ha : containsL a sub = false)
    (hb : containsL b sub = false) :
    containsL (a ++ m ++ b) sub = false := by
  cases hres : containsL (a ++ m ++ b) sub with
  | false => rfl
  | true =>
    exfalso
    rw [containsL_eq_true_iff] at hres
    obtain ⟨i, hp⟩ := hres
    have hsubpos : 0 < sub.length := by
      rcases Nat.eq_zero_or_pos sub.length with hz | hz
      · have hnil : sub = [] := List.length_eq_zero.mp hz
        have : containsL a sub = true := by
          rw [containsL_eq_true_iff]
          exact ⟨0, hnil ▸ List.nil_prefix⟩
        rw [ha] at this
        exact absurd this (by simp)
      · exact hz
    by_cases hA : i + sub.length ≤ a.length
    · have hdrop : (a ++ m ++ b).drop i = a.drop i ++ (m ++ b) := by
        rw [List.append_assoc, List.drop_append_eq_append_drop,
          Nat.sub_eq_zero_of_le (by omega)]
        simp
      rw [hdrop] at hp
      have hins : sub <+: a.drop i :=
        prefix_of_append_of_le _ _ _ hp (by rw [List.length_drop]; omega)
      have : containsL a sub = true := (containsL_eq_true_iff a sub).mpr ⟨i, hins⟩
      rw [ha] at this
      exact absurd this (by simp)
    · by_cases hC : a.length + m.length ≤ i
      · have hdrop : (a ++ m ++ b).drop i = b.drop (i - (a.length + m.length)) := by
          rw [List.drop_append_eq_append_drop,
            List.drop_eq_nil_of_le (by rw [List.length_append]; omega)]
          simp [List.length_append]
        rw [hdrop] at hp
        have : containsL b sub = true := (containsL_eq_true_iff b sub).mpr ⟨_, hp⟩
        rw [hb] at this
        exact absurd this (by simp)
      · have hmpos : 0 < m.length := List.length_pos.mpr hm
        have hwin : sub.length ≤ ((a ++ m ++ b).drop i).length := hp.length_le
        rw [List.length_drop] at hwin
        simp only [List.length_append] at hwin
        have hjlt : max i a.length < i + sub.length := by omega
        have hjm1 : a.length ≤ max i a.length := by omega
        have hjm2 : max i a.length < a.length + m.length := by omega
        have hjL : max i a.length < (a ++ m ++ b).length := by
          simp only [List.length_append]
          omega
        have hk : max i a.length - i < sub.length := by omega
        obtain ⟨t, ht⟩ := hp
        have hkd : max i a.length - i < ((a ++ m ++ b).drop i).length := by
          rw [List.length_drop]
          simp only [List.length_append]
          omega
        have h1 : ((a ++ m ++ b).drop i)[max i a.length - i] =
            (a ++ m ++ b)[max i a.length] := by
          rw [List.getElem_drop]
          congr 1
          omega
        have hkd2 : max i a.length - i < (sub ++ t).length := by
          rw [List.length_append]
          omega
        have h2 : ((a ++ m ++ b).drop i)[max i a.length - i] =
            sub[max i a.length - i] := by
          have hgoal : (sub ++ t)[max i a.length - i] = sub[max i a.length - i] :=
            List.getElem_append_left ..
          simp only [← ht] at hgoal ⊢
          exact hgoal
        have hjmb : max i a.length - a.length < (m ++ b).length := by
          rw [List.length_append]
          omega
        have hjL2 : max i a.length < (a ++ (m ++ b)).length := by
          rw [List.length_append, List.length_append]
          omega
        have hl2 : max i a.length - a.length < m.length := by omega
        have hmemM : (a ++ m ++ b)[max i a.length] ∈ m := by
          have hassoc : a ++ m ++ b = a ++ (m ++ b) := List.append_assoc a m b
          have hr : (a ++ (m ++ b))[max i a.length] =
              (m ++ b)[max i a.length - a.length] :=
            List.getElem_append_right hjm1
          have hr2 : (m ++ b)[max i a.length - a.length] =
              m[max i a.length - a.length] :=
            List.getElem_append_left ..
          have hfin : (a ++ m ++ b)[max i a.length] = m[max i a.length - a.length] := by
            simp only [hassoc]
            rw [hr, hr2]
          rw [hfin]
          exact List.getElem_mem _
        have hmemS : sub[max i a.length - i] ∈ sub := List.getElem_mem _
        have heq : (a ++ m ++ b)[max i a.length] = sub[max i a.length - i] :=
          h1.symm.trans h2
        exact hchar _ hmemM _ hmemS heq

/-! ## Lemmas: decimal rendering -/

theorem digitCh_isDigit (n : Nat) (h : n < 10) : (digitCh n).isDigit = true := by
  interval_cases n <;> decide

theorem natDigitsF_digit (fuel : Nat) :
    ∀ n, ∀ c ∈ natDigitsF fuel n, c.isDigit = true := by
  induction fuel with
  | zero =>
      intro n c hc
      simp [natDigitsF] at hc
  | succ f ih =>
      intro n c hc
      rw [natDigitsF] at hc
      by_cases h : n < 10
      · rw [if_pos h, List.mem_singleton] at hc
        rw [hc]
        exact digitCh_isDigit n h
      · rw [if_neg h, List.mem_append, List.mem_singleton] at hc
        rcases hc with hc | hc
        · exact ih (n / 10) c hc
        · rw [hc]
          exact digitCh_isDigit _ (Nat.mod_lt _ (by omega))

theorem natDigits_digit (n : Nat) : ∀ c ∈ natDigits n, c.isDigit = true :=
  natDigitsF_digit (n + 1) n

theorem natDigits_ne_nil (n : Nat) : natDigits n ≠ [] := by
  show natDigitsF (n + 1) n ≠ []
  rw [natDigitsF]
  by_cases h : n < 10 <;> simp [h]

theorem intToStr_chars (id : Int) :
    ∀ c ∈ (intToStr id).data, c.isDigit = true ∨ c = '-' := by
  cases id with
  | ofNat m =>
      intro c hc
      simp only [intToStr] at hc
      exact Or.inl (natDigits_digit m c hc)
  | negSucc m =>
      intro c hc
      simp only [intToStr, List.mem_cons] at hc
      rcases hc with hc | hc
      · exact Or.inr hc
      · exact Or.inl (natDigits_digit (m + 1) c hc)

theorem intToStr_ne_nil (id : Int) : (intToStr id).data ≠ [] := by
  cases id with
  | ofNat m => simpa [intToStr] using natDigits_ne_nil m
  | negSucc m => simp [intToStr]

/-! ## Lemmas: classification of the service error texts -/

theorem strContainsB_findErr_noRows (id : Int) :
    strContainsB (findErrMsg id) "no rows" = true := by
  unfold strContainsB
  have hdata : (findErrMsg id).data =
      "failed to find menu item with ID ".data ++
        ((intToStr id).data ++ (": ".data ++ noRowsText.data)) := by
    simp [findErrMsg, str_data_append]
  rw [hdata]
  exact containsL_append_right _ _ _ (containsL_append_right _ _ _ (by decide))

theorem strContainsB_notDeleted_notDeleted (id : Int) :
    strContainsB (notDeletedMsg id) "not deleted" = true := by
  unfold strContainsB
  have hdata : (notDeletedMsg id).data =
      "menu item with ID ".data ++ ((intToStr id).data ++ " is not deleted".data) := by
    simp [notDeletedMsg, str_data_append]
  rw [hdata]
  exact containsL_append_right _ _ _ (containsL_append_right _ _ _ (by decide))

theorem strContainsB_notDeleted_noRows (id : Int) :
    strContainsB (notDeletedMsg id) "no rows" = false := by
  unfold strContainsB
  have hdata : (notDeletedMsg id).data =
      "menu item with ID ".data ++ (intToStr id).data ++ " is not deleted".data := by
    simp [notDeletedMsg, str_data_append]
  rw [hdata]
  apply containsL_append3_eq_false
  · exact intToStr_ne_nil id
  · intro c hc c' hc' heq
    rcases intToStr_chars id c hc with hd | hd
    · have hnd : ∀ x ∈ "no rows".data, x.isDigit = false := by decide
      rw [heq, hnd c' hc'] at hd
      exact absurd hd (by simp)
    · have hnm : ∀ x ∈ "no rows".data, x ≠ '-' := by decide
      exact hnm c' hc' (heq ▸ hd)
  · decide
  · decide

/-! ## Claim theorems -/

/-- C2: the claim says invalid create requests (empty name among them) are
rejected with a validation error and a 400, with no row inserted.  The code
performs no validation: evaluated at a create request with an empty name, the
service inserts the row and the endpoint answers 201 Created with the shaped
DTO, so the claim describes intended behaviour the code does not implement. -/
theorem createMenuItem_accepts_empty_name :
    handlerCreateMenuItem [] (some c2Req) 0 1 =
      (.ok 201 (.item (toResponse c2Inserted)) "Menu item created successfully",
       [c2Inserted]) := by
  decide

/-- C3: the list endpoint honours exactly one filter branch, selected with
precedence search, then category, then available equal true, then
include_deleted equal true, else the default active list.  Each implication
leaves the lower-priority parameters unconstrained, so the branches are
mutually exclusive and never intersected. -/
theorem getAllMenuItems_filter_precedence (db : DB) (p : ListParams) :
    (p.search ≠ "" →
      handlerGetAllMenuItems db p =
        .ok 200 (.items (SearchMenuItems db p.search)) "Menu items retrieved successfully") ∧
    (p.search = "" → p.category ≠ "" →
      handlerGetAllMenuItems db p =
        .ok 200 (.items (GetMenuItemsByCategory db p.category))
          "Menu items retrieved successfully") ∧
    (p.search = "" → p.category = "" → p.available = "true" →
      handlerGetAllMenuItems db p =
        .ok 200 (.items (GetAvailableMenuItems db)) "Menu items retrieved successfully") ∧
    (p.search = "" → p.category = "" → p.available ≠ "true" → p.includeDeleted = "true" →
      handlerGetAllMenuItems db p =
        .ok 200 (.items (GetAllMenuItemsWithDeleted db)) "Menu items retrieved successfully") ∧
    (p.search = "" → p.category = "" → p.available ≠ "true" → p.includeDeleted ≠ "true" →
      handlerGetAllMenuItems db p =
        .ok 200 (.items (GetAllMenuItems db)) "Menu items retrieved successfully") := by
  refine ⟨?_, ?_, ?_, ?_, ?_⟩ <;> intros <;> simp_all [handlerGetAllMenuItems]

theorem getAllMenuItems_filter_precedence_witness :
    handlerGetAllMenuItems []
        { category := "main", available := "true", includeDeleted := "true",
          search := "pizza" } =
      .ok 200 (.items (SearchMenuItems [] "pizza")) "Menu items retrieved successfully" :=
  (getAllMenuItems_filter_precedence []
    { category := "main", available := "true", includeDeleted := "true",
      search := "pizza" }).1 (by decide)

/-- C9: a successful soft delete stamps every stored row carrying the target
identifier with one timestamp captured at the start of the operation, so
updated_at equals deleted_at on the soft-deleted row. -/
theorem softDelete_sets_updatedAt_eq_deletedAt (db : DB) (id now : Int) (db' : DB)
    (h : SoftDeleteMenuItem db id now = .ok db') :
    ∀ r ∈ db', r.id = id → r.deletedAt = some r.updatedAt ∧ r.updatedAt = now := by
  unfold SoftDeleteMenuItem at h
  cases hf : qFindByID db id with
  | none => rw [hf] at h; exact absurd h (by simp)
  | some item =>
    rw [hf] at h
    have hid : item.id = id := by
      have hpred := List.find?_some hf
      have := (Bool.and_eq_true _ _).mp hpred
      exact beq_iff_eq.mp this.1
    have hdb : db' = db.map fun r =>
        if r.id == item.id then { r with deletedAt := some now, updatedAt := now } else r := by
      cases h
      rfl
    intro r hr hrid
    rw [hdb] at hr
    rw [List.mem_map] at hr
    obtain ⟨r0, hr0, hfr⟩ := hr
    by_cases hc : r0.id == item.id
    · rw [if_pos hc] at hfr
      rw [← hfr]
      exact ⟨rfl, rfl⟩
    · rw [if_neg hc] at hfr
      exfalso
      apply hc
      rw [hfr, hrid, hid]
      exact beq_self_eq_true id

theorem softDelete_sets_updatedAt_eq_deletedAt_witness :
    deletedItemFx.deletedAt = some deletedItemFx.updatedAt ∧ deletedItemFx.updatedAt = 5 :=
  softDelete_sets_updatedAt_eq_deletedAt
    [{ deletedItemFx with updatedAt := 0, deletedAt := none }] 1 5 [deletedItemFx]
    (by rfl) deletedItemFx (by decide) (by decide)

/-- C10: soft delete is not idempotent.  When every stored row with the
target identifier is already soft-deleted, the active-only lookup finds no
row, the service fails with the wrapped no-rows error, and the DELETE
endpoint without force answers 404 leaving the table unchanged. -/
theorem softDelete_on_deleted_not_found (db : DB) (id now : Int)
    (hdel : ∀ r ∈ db, r.id = id → r.deletedAt ≠ none) :
    SoftDeleteMenuItem db id now = .error (findErrMsg id) ∧
    handlerDeleteMenuItem db id false now = (.err 404 "Menu item not found", db) := by
  have hfind : qFindByID db id = none := by
    unfold qFindByID
    rw [List.find?_eq_none]
    intro r hr
    by_cases hid : r.id = id
    · have : r.deletedAt ≠ none := hdel r hr hid
      simp [hid, Option.isNone_iff_eq_none, this]
    · simp [hid]
  have hsvc : SoftDeleteMenuItem db id now = .error (findErrMsg id) := by
    unfold SoftDeleteMenuItem
    rw [hfind]
  refine ⟨hsvc, ?_⟩
  unfold handlerDeleteMenuItem
  simp only [if_false, Bool.false_eq_true, ite_false]
  rw [hsvc]
  simp [strContainsB_findErr_noRows id]

theorem softDelete_on_deleted_not_found_witness :
    SoftDeleteMenuItem [deletedItemFx] 1 9 = .error (findErrMsg 1) ∧
    handlerDeleteMenuItem [deletedItemFx] 1 false 9 =
      (.err 404 "Menu item not found", [deletedItemFx]) :=
  softDelete_on_deleted_not_found [deletedItemFx] 1 9 (by decide)

/-- C4: the claim describes the documented behaviour of restore (load the
record including soft-deleted rows, answer 400 when it is not deleted,
otherwise clear deleted_at, refresh updated_at and answer 200 with the
refreshed DTO).  The code contradicts the claim and its own doc comments:
the bun soft_delete tag adds deleted_at IS NULL to the FindByIDWithDeleted
SELECT, so a soft-deleted record is never loaded and the endpoint answers
404 leaving the row soft-deleted, while an active record still yields the
not-deleted 400 — no restore can ever succeed.  Evaluated at the failing
input (a table holding the target row soft-deleted, then active). -/
theorem restore_soft_deleted_item_404 :
    handlerRestoreMenuItem [deletedItemFx] 1 9 =
      (.err 404 "Menu item not found", [deletedItemFx]) ∧
    handlerRestoreMenuItem [activeItemFx] 1 9 =
      (.err 400 "Menu item is not deleted", [activeItemFx]) := by
  decide

/-- C8: the database health check runs under the fixed five-second
sub-deadline; a passing check yields 200 with overall status healthy, a
failing one 503 with overall status degraded. -/
theorem healthHandlerWithDB_semantics (check : Nat → Option String) :
    healthCheckTimeoutSeconds = 5 ∧
    (check healthCheckTimeoutSeconds = none →
      HealthHandlerWithDB check =
        { statusCode := 200, overallStatus := "healthy",
          databaseStatus := "healthy", databaseError := none }) ∧
    (∀ e, check healthCheckTimeoutSeconds = some e →
      HealthHandlerWithDB check =
        { statusCode := 503, overallStatus := "degraded",
          databaseStatus := "unhealthy", databaseError := some e }) := by
  refine ⟨rfl, ?_, ?_⟩
  · intro h
    unfold HealthHandlerWithDB
    rw [h]
    rfl
  · intro e h
    unfold HealthHandlerWithDB
    rw [h]
    rfl

theorem healthHandlerWithDB_semantics_witness :
    HealthHandlerWithDB (fun _ => none) =
      { statusCode := 200, overallStatus := "healthy",
        databaseStatus := "healthy", databaseError := none } ∧
    HealthHandlerWithDB (fun _ => some "connection refused") =
      { statusCode := 503, overallStatus := "degraded",
        databaseStatus := "unhealthy", databaseError := some "connection refused" } :=
  ⟨(healthHandlerWithDB_semantics (fun _ => none)).2.1 rfl,
   (healthHandlerWithDB_semantics (fun _ => some "connection refused")).2.2
     "connection refused" rfl⟩

/-- C5 counterexample: the claim says search returns exactly the active items
whose name or description contains the term as a case-insensitive substring.
For the term consisting of one underscore, the unescaped ILIKE pattern treats
it as a wildcard: the active item named a is returned although the term is a
substring of neither field. -/
theorem search_substring_claim_counterexample :
    SearchMenuItems [c5Item] "_" = [toResponse c5Item] ∧
    specSearchMenuItems [c5Item] "_" = [] ∧
    containsCI "_" c5Item.name = false ∧
    c5Item.description = none ∧ c5Item.deletedAt = none := by
  decide

/-- C5 amended: search returns exactly the items that are not soft-deleted
and whose name or description matches the SQL ILIKE pattern built as
percent-term-percent (percent and underscore in the term act as wildcards,
backslash escapes; matching is case-insensitive; a NULL description never
matches). -/
theorem searchMenuItems_ilike_characterization (db : DB) (q : String)
    (x : MenuItemResponse) :
    x ∈ SearchMenuItems db q ↔
      ∃ m, m ∈ db ∧ m.deletedAt = none ∧
        (sqlIlikeContains q m.name = true ∨
          ∃ d, m.description = some d ∧ sqlIlikeContains q d = true) ∧
        x = toResponse m := by
  unfold SearchMenuItems
  rw [List.mem_map]
  constructor
  · rintro ⟨m, hm, rfl⟩
    rw [List.mem_filter] at hm
    obtain ⟨hmem, hsel⟩ := hm
    refine ⟨m, hmem, ?_, ?_, rfl⟩
    · cases hdel : m.deletedAt with
      | none => rfl
      | some t =>
          exfalso
          rw [hdel] at hsel
          simp only [Option.isSome_some, Option.isNone_some, sqlOfBool] at hsel
          cases h1 : sqlOr (sqlIlikeCol (some m.name) ("%" ++ q ++ "%"))
              (sqlIlikeCol m.description ("%" ++ q ++ "%")) <;>
            rw [h1] at hsel <;> simp [sqlAnd, sqlIsTrue] at hsel
    · cases hdel : m.deletedAt with
      | some t =>
          exfalso
          rw [hdel] at hsel
          simp only [Option.isNone_some, sqlOfBool] at hsel
          cases h1 : sqlOr (sqlIlikeCol (some m.name) ("%" ++ q ++ "%"))
              (sqlIlikeCol m.description ("%" ++ q ++ "%")) <;>
            rw [h1] at hsel <;> simp [sqlAnd, sqlIsTrue] at hsel
      | none =>
          rw [hdel] at hsel
          simp only [Option.isNone_none, sqlOfBool] at hsel
          cases hname : ilikeB ("%" ++ q ++ "%") m.name with
          | true => exact Or.inl hname
          | false =>
              cases hdesc : m.description with
              | none =>
                  exfalso
                  rw [hdesc] at hsel
                  simp [sqlIlikeCol, sqlOfBool, hname, sqlOr, sqlAnd, sqlIsTrue] at hsel
              | some d =>
                  cases hd : ilikeB ("%" ++ q ++ "%") d with
                  | true => exact Or.inr ⟨d, rfl, hd⟩
                  | false =>
                      exfalso
                      rw [hdesc] at hsel
                      simp [sqlIlikeCol, sqlOfBool, hname, hd, sqlOr, sqlAnd, sqlIsTrue] at hsel
  · rintro ⟨m, hmem, hdel, hmatch, rfl⟩
    refine ⟨m, ?_, rfl⟩
    rw [List.mem_filter]
    refine ⟨hmem, ?_⟩
    rw [hdel]
    rcases hmatch with hname | ⟨d, hdesc, hd⟩
    · have hname' : ilikeB ("%" ++ q ++ "%") m.name = true := hname
      rw [show sqlIlikeCol (some m.name) ("%" ++ q ++ "%") = .t by
        simp [sqlIlikeCol, sqlOfBool, hname']]
      cases h2 : sqlIlikeCol m.description ("%" ++ q ++ "%") <;>
        simp [sqlOr, sqlAnd, sqlOfBool, sqlIsTrue]
    · have hd' : ilikeB ("%" ++ q ++ "%") d = true := hd
      rw [hdesc]
      rw [show sqlIlikeCol (some d) ("%" ++ q ++ "%") = .t by
        simp [sqlIlikeCol, sqlOfBool, hd']]
      cases h2 : sqlIlikeCol (some m.name) ("%" ++ q ++ "%") <;>
        simp [sqlOr, sqlAnd, sqlOfBool, sqlIsTrue]

/-- C1 counterexample: the claim asserts the handler passed to the server is
Recovery wrapping Logging wrapping CORS wrapping the mux.  On an OPTIONS
request the two nestings differ observably: in the actual chain CORS is
outermost and short-circuits before Logging runs, so no request line is
logged, while the claimed nesting logs one. -/
theorem middleware_order_claim_counterexample :
    appServerHandler trivialApp c1Request Writer.empty ≠
      specClaimedChain trivialApp c1Request Writer.empty := by
  decide

/-- C1 amended: main.go wraps the mux with Recovery first, then Logging, then
CORS, so the handler passed to the server nests CORS outermost, then Logging,
then Recovery, with router dispatch innermost. -/
theorem middleware_chain_actual_nesting (app : ItemsApp) :
    appServerHandler app =
      CORSMiddleware (LoggingMiddleware (RecoveryMiddleware (muxHandler app))) := rfl

/-- C7: an OPTIONS request to any path is answered 200 with the permissive
CORS headers and an empty body, independently of the routed application (so
no router or handler logic is reached); any other request proceeds inward
with the CORS headers already set on the writer. -/
theorem cors_options_short_circuit (app : ItemsApp) (r : Request) :
    (r.method = "OPTIONS" →
      appServerHandler app r Writer.empty =
        { writer := { headers := corsHeadersList, status := some 200, body := [] },
          logs := [], panicked := none }) ∧
    (r.method ≠ "OPTIONS" →
      appServerHandler app r Writer.empty =
        LoggingMiddleware (RecoveryMiddleware (muxHandler app)) r
          (corsSetHeaders Writer.empty)) := by
  constructor
  · intro h
    show CORSMiddleware (LoggingMiddleware (RecoveryMiddleware (muxHandler app))) r
        Writer.empty = _
    unfold CORSMiddleware
    rw [if_pos h]
    rfl
  · intro h
    show CORSMiddleware (LoggingMiddleware (RecoveryMiddleware (muxHandler app))) r
        Writer.empty = _
    unfold CORSMiddleware
    rw [if_neg h]

theorem cors_options_short_circuit_witness :
    appServerHandler trivialApp { method := "OPTIONS", path := "/health", now := 0 }
        Writer.empty =
      { writer := { headers := corsHeadersList, status := some 200, body := [] },
        logs := [], panicked := none } ∧
    appServerHandler trivialApp { method := "GET", path := "/health", now := 0 }
        Writer.empty =
      LoggingMiddleware (RecoveryMiddleware (muxHandler trivialApp))
        { method := "GET", path := "/health", now := 0 } (corsSetHeaders Writer.empty) :=
  ⟨(cors_options_short_circuit trivialApp _).1 rfl,
   (cors_options_short_circuit trivialApp _).2 (by decide)⟩

/-- C6 counterexample: the claim asserts every request to a path the router
does not match is answered with the JSON error envelope, never a bare
transport-level 404.  The /api/v1 sub-mux registers no catch-all, so the
unmatched path /api/v1/bogus is answered by the net/http built-in plain-text
404 body instead of the envelope. -/
theorem unmatched_api_subpath_bare_404 :
    (appServerHandler trivialApp c6Request Writer.empty).writer.status = some 404 ∧
    (appServerHandler trivialApp c6Request Writer.empty).writer.body =
      [.text "404 page not found\n"] := by
  decide

/-- C6 amended: a non-OPTIONS request to a path outside the /api/v1 subtree
and different from /health that the router does not match is answered 404
with the middleware JSON error envelope (fields message, error, statusCode,
path, timestamp); unmatched paths inside the /api/v1 subtree instead receive
the bare transport-level 404 exhibited by the counterexample. -/
theorem unmatched_outer_path_envelope_404 (app : ItemsApp) (r : Request)
    (hm : r.method ≠ "OPTIONS") (h1 : r.path ≠ "/health") (h2 : r.path ≠ "/api/v1")
    (h3 : strStarts "/api/v1/" r.path = false) :
    appServerHandler app r Writer.empty =
      { writer :=
          { headers := corsHeadersList ++ [("Content-Type", "application/json")],
            status := some 404,
            body := [.envelope
              { message := "Cannot " ++ r.method ++ " " ++ r.path,
                errorText := "Not Found", statusCode := 404,
                path := r.path, timestamp := r.now }] },
        logs := [{ level := .warn, msg := "HTTP Request", method := r.method,
                   path := r.path, status := 404 }],
        panicked := none } := by
  show CORSMiddleware (LoggingMiddleware (RecoveryMiddleware (muxHandler app))) r
      Writer.empty = _
  unfold CORSMiddleware
  rw [if_neg hm]
  unfold LoggingMiddleware RecoveryMiddleware muxHandler
  rw [if_neg h1, if_neg h2]
  simp only [h3, Bool.false_eq_true, if_false]
  rfl

theorem unmatched_outer_path_envelope_404_witness :
    appServerHandler trivialApp { method := "GET", path := "/nope", now := 3 }
        Writer.empty =
      { writer :=
          { headers := corsHeadersList ++ [("Content-Type", "application/json")],
            status := some 404,
            body := [.envelope
              { message := "Cannot GET /nope", errorText := "Not Found",
                statusCode := 404, path := "/nope", timestamp := 3 }] },
        logs := [{ level := .warn, msg := "HTTP Request", method := "GET",
                   path := "/nope", status := 404 }],
        panicked := none } := by
  have h := unmatched_outer_path_envelope_404 trivialApp
    { method := "GET", path := "/nope", now := 3 }
    (by decide) (by decide) (by decide) (by decide)
  rw [h]
  decide

end Agora
